import Mathlib

/-!
Verification of the gentropy LD-index pipeline (`src/otg/dataset/ld_index.py`)
and the tabular dataset contract (`src/gentropy/dataset/dataset.py`) against
their natural-language specification.

The Python code is shallowly embedded: Spark dataframes become lists of
records, joins and window functions become explicit list operations, raised
exceptions become `Except` errors.  Machine floats carrying correlation
coefficients are modelled as rationals.
-/

namespace Gentropy

/-- One stored correlation coefficient of a (triangular) LD block matrix:
a row of the Spark dataframe produced by `BlockMatrix.entries` with the
`entry` column renamed to `r`.  Mirrors `MatrixEntry {row, col, r}`. -/
structure MatrixEntry where
  i : Nat
  j : Nat
  r : ℚ
deriving DecidableEq, Repr

/-- `LDIndex._transpose_ld_matrix`:
`ld_matrix.filter(col("i") == col("j")).unionByName(ld_matrix.selectExpr("i as j", "j as i", "r"))`.
The first operand keeps only the rows with `i == j`; the second operand is the
whole input with `i` and `j` swapped; `unionByName` concatenates without
deduplication. -/
def transpose_ld_matrix (ld_matrix : List MatrixEntry) : List MatrixEntry :=
  (ld_matrix.filter fun e => e.i == e.j) ++
    (ld_matrix.map fun e => ⟨e.j, e.i, e.r⟩)

/-- `LDIndex._convert_ld_matrix_to_table`: the block-matrix entries are
filtered by `hl.abs(table.entry) >= min_r2 ** 0.5` and then transposed.
The square root is not rational, so the embedding receives the threshold
`sqrt_min_r2` (the value the Python code computes as `min_r2 ** 0.5`)
directly; theorems relate it to `min_r2` by `sqrt_min_r2 ^ 2 = min_r2`. -/
def convert_ld_matrix_to_table (entries : List MatrixEntry) (sqrt_min_r2 : ℚ) :
    List MatrixEntry :=
  transpose_ld_matrix (entries.filter fun e => sqrt_min_r2 ≤ |e.r|)

/-- A row of the per-population raw variant index after the liftover step
(`_liftover_loci` followed by `.to_spark()`): the GRCh38 locus columns are
null when the liftover of that row failed.  `_liftover_loci` itself lives in
`otg/common/utils.py`, which is absent from the sources; per the spec (§4.3)
the lifter "produces either a translated `VariantLocus` in build B or a
'no mapping' result", so the embedding starts from rows whose lifted locus
is an `Option`. -/
structure LiftedVariantRow where
  /-- `locus_GRCh38` = (contig, position), `none` when the liftover failed. -/
  lifted : Option (String × Nat)
  allele0 : String
  allele1 : String
  idx : Nat
deriving DecidableEq, Repr

/-- A row of the per-population variant-index lookup table:
`{variantId, position, idx}`.  Mirrors `VariantIndexRecord`. -/
structure VariantIndexRecord where
  variantId : String
  position : Nat
  idx : Nat
deriving DecidableEq, Repr

/-- Modelled from the spec: `convert_gnomad_position_to_ensembl` is imported
from `otg/common/utils.py`, which is absent from the sources.  The spec
(§4.4 step 2) composes the `variantId` from "the lifted chromosome, lifted
position, and the two allele strings", so the conversion is modelled as
returning the lifted position unchanged. -/
def convert_gnomad_position_to_ensembl (position : Nat) (a0 a1 : String) : Nat :=
  position

/-- Left-to-right removal of every non-overlapping occurrence of the
three-character pattern `chr` from a character list, the semantics of
`regexp_replace(_, "chr", "")` for this literal pattern. -/
def removeChrOccurrences : List Char → List Char
  | 'c' :: 'h' :: 'r' :: rest => removeChrOccurrences rest
  | c :: rest => c :: removeChrOccurrences rest
  | [] => []

/-- The `regexp_replace("locus_GRCh38.contig", "chr", "")` column of
`_process_variant_indices`: every occurrence of the literal pattern `chr`
is removed from the contig name. -/
def chromosomeOfContig (contig : String) : String :=
  ⟨removeChrOccurrences contig.data⟩

/-- The record a single post-liftover row contributes to the lookup table,
before the ambiguity filter: `none` when the liftover failed (the
`filter(col("locus_GRCh38.position").isNotNull())` step), otherwise the
`variantId = concat_ws("_", chromosome, position, alleles[0], alleles[1])`
together with `position` and `idx`. -/
def derivedRecord (row : LiftedVariantRow) : Option VariantIndexRecord :=
  match row.lifted with
  | none => none
  | some (contig, pos38) =>
      let chromosome := chromosomeOfContig contig
      let position := convert_gnomad_position_to_ensembl pos38 row.allele0 row.allele1
      some ⟨String.intercalate "_"
              [chromosome, toString position, row.allele0, row.allele1],
            position, row.idx⟩

/-- `LDIndex._process_variant_indices` (from the `.to_spark()` dataframe on):
drop rows whose liftover failed, derive `variantId` and `position`, then the
window `count("*").over(Window.partitionBy("variantId"))` with
`filter(col("count") == 1)` keeps exactly the rows whose `variantId` occurs
once.  `sortWithinPartitions` and `persist` do not change the contents and
are omitted. -/
def process_variant_indices (rows : List LiftedVariantRow) :
    List VariantIndexRecord :=
  let resolved := rows.filterMap derivedRecord
  resolved.filter fun v =>
    (resolved.countP fun w => w.variantId == v.variantId) == 1

/-- A row of the output of `_resolve_variant_indices`: the join keeps the
matrix coordinates `i` and `j` ("keeping for debugging purposes"), the
correlation `r`, and the two looked-up variant ids; `variantId_i` is
nullable because the join on `i` is a left join. -/
structure ResolvedRow where
  i : Nat
  j : Nat
  r : ℚ
  variantId_i : Option String
  variantId_j : String
deriving DecidableEq, Repr

/-- `LDIndex._resolve_variant_indices`:
`ld_matrix.join(ld_index_i, on="i", how="left").join(ld_index_j, on="j", how="inner")`
where `ld_index_i` renames `idx` to `i` and `variantId` to `variantId_i`,
and `ld_index_j` likewise for `j`.  A left join keeps every left row, with a
null `variantId_i` when no index record has `idx = i`; the inner join keeps
only rows with a matching `idx = j` record. -/
def resolve_variant_indices (ld_index : List VariantIndexRecord)
    (ld_matrix : List MatrixEntry) : List ResolvedRow :=
  ld_matrix.flatMap fun e =>
    let matches_i := ld_index.filter fun v => v.idx == e.i
    let lefts : List (Option String) :=
      if matches_i.isEmpty then [none] else matches_i.map fun v => some v.variantId
    lefts.flatMap fun vi =>
      (ld_index.filter fun v => v.idx == e.j).map fun vj =>
        ⟨e.i, e.j, e.r, vi, vj.variantId⟩

/-- `LDIndex._create_ldindex_for_population`, with the two file reads
(`BlockMatrix.read`, `hl.read_table`) replaced by their in-memory results:
convert the matrix, process the variant indices, and resolve. -/
def create_ldindex_for_population (matrix_entries : List MatrixEntry)
    (index_rows : List LiftedVariantRow) (sqrt_min_r2 : ℚ) : List ResolvedRow :=
  resolve_variant_indices (process_variant_indices index_rows)
    (convert_ld_matrix_to_table matrix_entries sqrt_min_r2)

/-- `LDIndex._aggregate_ld_index_across_populations`: the identity (the body
is a `TODO` that returns its argument unchanged). -/
def aggregate_ld_index_across_populations (unaggregated : List ResolvedRow) :
    List ResolvedRow :=
  unaggregated

/-- The two ways `LDIndex.from_gnomad` can raise after the per-population
loop: Python's `reduce` over an empty list (every population failed) raises
`TypeError`; `noPopulationsSucceededError` is the dedicated error the spec
names for that situation, listed here so the two can be compared — the code
never raises it. -/
inductive FromGnomadError where
  | reduceEmptyTypeError
  | noPopulationsSucceededError
deriving DecidableEq, Repr

/-- The per-population reads and pipeline of the `from_gnomad` loop body:
`_create_ldindex_for_population` on the contents read for population `pop`,
where reading (`BlockMatrix.read` / `hl.read_table`) can fail.  `read`
returns the in-memory matrix entries and lifted index rows for a population,
or the message of the exception the reads raised. -/
def run_population
    (read : String → Except String (List MatrixEntry × List LiftedVariantRow))
    (sqrt_min_r2 : ℚ) (pop : String) : Except String (List ResolvedRow) :=
  (read pop).map fun data =>
    create_ldindex_for_population data.1 data.2 sqrt_min_r2

/-- The diagnostic `from_gnomad` prints when a population's pipeline raises:
`f"Failed to create LDIndex for population {pop}: {e}"`. -/
def populationFailureDiagnostic (pop msg : String) : String :=
  "Failed to create LDIndex for population " ++ pop ++ ": " ++ msg

/-- `LDIndex.from_gnomad`: for each population the pipeline runs inside
`try/except`; a failure appends a diagnostic and the loop continues, a
success appends the population's dataframe.  The successes are then folded
with `reduce(lambda x, y: x.unionByName(y), ld_indices)` — which raises
`TypeError` when `ld_indices` is empty — and passed through the (identity)
aggregation.  Returns the printed diagnostics together with the resulting
dataframe or error. -/
def from_gnomad (ld_populations : List String)
    (read : String → Except String (List MatrixEntry × List LiftedVariantRow))
    (sqrt_min_r2 : ℚ) :
    List String × Except FromGnomadError (List ResolvedRow) :=
  let diags := ld_populations.filterMap fun pop =>
    match run_population read sqrt_min_r2 pop with
    | .error e => some (populationFailureDiagnostic pop e)
    | .ok _ => none
  let ld_indices := ld_populations.filterMap fun pop =>
    (run_population read sqrt_min_r2 pop).toOption
  match ld_indices with
  | [] => (diags, .error .reduceEmptyTypeError)
  | x :: rest =>
      (diags, .ok (aggregate_ld_index_across_populations
        (rest.foldl (· ++ ·) x)))

/-! ### The tabular dataset contract (`src/gentropy/dataset/dataset.py`) -/

/-- A Spark datatype, modelled as an atomic tag: the Python code compares
`type(field.dataType)`, which for atomic types is the same as comparing the
datatypes themselves. -/
inductive SparkType where
  | integer
  | long
  | double
  | string
  | boolean
deriving DecidableEq, Repr

/-- A field of a Spark `StructType`: name, datatype, nullability. -/
structure StructField where
  name : String
  dataType : SparkType
  nullable : Bool
deriving DecidableEq, Repr

/-- A Spark `StructType` as a list of fields. -/
abbrev Schema := List StructField

/-- Modelled from the spec: `flatten_schema` is imported from
`gentropy/common/schemas.py`, which is absent from the sources.  The spec
describes the contract only as checking "field presence, nullability, type,
and duplication against an expected schema"; over the flat (non-nested)
schemas modelled here, flattening returns the field list itself. -/
def flatten_schema (schema : Schema) : List StructField :=
  schema

/-- The datatype a Python dict comprehension
`{field.name: type(field.dataType) for field in fields}` associates to a
name: later entries overwrite earlier ones, so the last field with that
name wins. -/
def lastFieldType (fields : List StructField) (n : String) : Option SparkType :=
  (fields.reverse.find? fun f => f.name == n).map (·.dataType)

/-- `Dataset.validate_schema`: four checks in source order, each raising
`ValueError` when its offending list is non-empty —
(1) observed fields whose name is not among the expected names;
(2) expected non-nullable field names with no observed field of that name;
(3) observed fields (as whole `StructField` values) occurring more than once;
(4) names whose observed datatype (last occurrence, per dict semantics)
differs from the expected datatype for that name. -/
def validate_schema (expected_schema observed_schema : Schema) :
    Except String Unit :=
  let expected_fields := flatten_schema expected_schema
  let observed_fields := flatten_schema observed_schema
  let unexpected_field_names := (observed_fields.filter fun x =>
    !((expected_fields.map (·.name)).contains x.name)).map (·.name)
  if unexpected_field_names ≠ [] then
    .error "fields are not included in DataFrame schema"
  else
    let required_fields := (expected_schema.filter fun x => !x.nullable).map (·.name)
    let missing_required_fields := required_fields.filter fun req =>
      !(observed_fields.any fun field => field.name == req)
    if missing_required_fields ≠ [] then
      .error "fields are required but missing"
    else
      let duplicated_fields := observed_fields.dedup.filter fun x =>
        decide (1 < observed_fields.count x)
      if duplicated_fields ≠ [] then
        .error "fields are duplicated in DataFrame schema"
      else
        let fields_with_different_observed_datatype :=
          ((observed_fields.map (·.name)).dedup).filter fun n =>
            match lastFieldType observed_fields n, lastFieldType expected_fields n with
            | some observed_type, some expected_type => observed_type != expected_type
            | _, _ => false
        if fields_with_different_observed_datatype ≠ [] then
          .error "fields present differences in their datatypes"
        else
          .ok ()

/-- A Spark dataframe: its schema and its rows (row payloads are opaque). -/
structure DataFrame where
  schema : Schema
  rows : List (List String)
deriving DecidableEq, Repr

/-- `DataFrame.filter`: row-level filtering; the schema is unchanged. -/
def DataFrame.filterRows (df : DataFrame) (p : List String → Bool) : DataFrame :=
  ⟨df.schema, df.rows.filter p⟩

/-- The `Dataset` dataclass: a dataframe together with its expected schema. -/
structure Dataset where
  _df : DataFrame
  _schema : Schema
deriving DecidableEq, Repr

/-- Constructing a `Dataset`: the dataclass `__post_init__` calls
`validate_schema` (expected = `self._schema`, observed = `self._df.schema`),
so construction raises instead of producing an instance when validation
fails. -/
def Dataset.make (df : DataFrame) (schema : Schema) : Except String Dataset :=
  match validate_schema schema df.schema with
  | .ok _ => .ok ⟨df, schema⟩
  | .error e => .error e

/-- The `df` setter: the source rebinds `self._df = new_df` first and only
then calls `validate_schema`, so when validation raises the exception
propagates but the live instance is left holding the new dataframe.  The
embedding returns the post-state together with the outcome: the post-state
is `{d with _df := new_df}` whether or not validation succeeded. -/
def Dataset.setDf (d : Dataset) (new_df : DataFrame) :
    Dataset × Except String Unit :=
  let updated := { d with _df := new_df }
  (updated, validate_schema updated._schema updated._df.schema)

/-- `Dataset.filter`: filters the dataframe and constructs a new instance
with the class schema (`class_constructor.get_schema()`, passed here as
`class_schema`); construction re-validates via `__post_init__`. -/
def Dataset.filterDataset (class_schema : Schema) (d : Dataset)
    (p : List String → Bool) : Except String Dataset :=
  Dataset.make (d._df.filterRows p) class_schema

/-- `Dataset.from_parquet`: `session.load_data` produces the dataframe `df`
for `path` (the loading itself is external I/O); an empty dataframe raises
`ValueError`, otherwise `cls(_df=df, _schema=schema)` constructs the
dataset (validating via `__post_init__`). -/
def Dataset.from_parquet (schema : Schema) (path : String) (df : DataFrame) :
    Except String Dataset :=
  if df.rows.isEmpty then
    .error ("Parquet file is empty: " ++ path)
  else
    Dataset.make df schema

/-- The live datasets producible through the `Dataset` contract: direct
construction, `from_parquet`, the `df` setter (which also mediates
`drop_infinity_values`, `persist`, `unpersist`, `coalesce` and
`repartition`), and `filter` (which also mediates `valid_rows`).  A raising
construction leaves no instance, but a raising setter call does: the
instance was already mutated when `validate_schema` raised, so the setter's
post-state is live whether or not validation succeeded. -/
inductive Dataset.Reachable : Dataset → Prop where
  | make (df : DataFrame) (schema : Schema) (d : Dataset) :
      Dataset.make df schema = .ok d → Dataset.Reachable d
  | from_parquet (schema : Schema) (path : String) (df : DataFrame) (d : Dataset) :
      Dataset.from_parquet schema path df = .ok d → Dataset.Reachable d
  | set (d : Dataset) (new_df : DataFrame) :
      Dataset.Reachable d → Dataset.Reachable (d.setDf new_df).1
  | filter (class_schema : Schema) (d : Dataset) (p : List String → Bool)
      (d' : Dataset) :
      Dataset.Reachable d → Dataset.filterDataset class_schema d p = .ok d' →
      Dataset.Reachable d'

/-! ### General lemmas about the embedded operations -/

/-- Folding list concatenation from an initial list appends the flattened
tail: the semantics of `reduce(lambda x, y: x.unionByName(y), ld_indices)`
on a non-empty list of dataframes. -/
theorem foldl_append_eq_append_flatten {α : Type} (l : List (List α)) (a : List α) :
    l.foldl (· ++ ·) a = a ++ l.flatten := by
  induction l generalizing a with
  | nil => simp
  | cons x xs ih => simp [ih, List.append_assoc]

/-- Two distinct members both satisfying a predicate give a `countP` of at
least two. -/
theorem two_le_countP {α : Type} {p : α → Bool} {l : List α} {a b : α}
    (ha : a ∈ l) (hb : b ∈ l) (hne : a ≠ b)
    (hpa : p a = true) (hpb : p b = true) : 2 ≤ l.countP p := by
  induction l with
  | nil => simp at ha
  | cons c t ih =>
    rcases List.mem_cons.mp ha with rfl | hat
    · have hbt : b ∈ t := by
        rcases List.mem_cons.mp hb with rfl | h
        · exact absurd rfl hne
        · exact h
      have h1 : 0 < t.countP p := List.countP_pos_iff.mpr ⟨b, hbt, hpb⟩
      rw [List.countP_cons_of_pos _ _ hpa]
      omega
    · rcases List.mem_cons.mp hb with rfl | hbt
      · have h1 : 0 < t.countP p := List.countP_pos_iff.mpr ⟨a, hat, hpa⟩
        rw [List.countP_cons_of_pos _ _ hpb]
        omega
      · have h2 := ih hat hbt
        rw [List.countP_cons]
        omega

/-- Every member of the transposed matrix carries the correlation of some
input entry. -/
theorem mem_transpose_ld_matrix {m : List MatrixEntry} {e : MatrixEntry}
    (h : e ∈ transpose_ld_matrix m) : ∃ e' ∈ m, e.r = e'.r := by
  rcases List.mem_append.mp h with h | h
  · exact ⟨e, (List.mem_filter.mp h).1, rfl⟩
  · rcases List.mem_map.mp h with ⟨e', he', rfl⟩
    exact ⟨e', he', rfl⟩

/-- Inversion for membership in `resolve_variant_indices`: every output row
comes from a matrix entry whose `j` coordinate has a matching index record
(the inner join); the `variantId_i` field, when present, comes from a record
matching `i`, and is absent exactly when no record matches `i` (the left
join). -/
theorem mem_resolve_variant_indices {ld_index : List VariantIndexRecord}
    {m : List MatrixEntry} {out : ResolvedRow}
    (h : out ∈ resolve_variant_indices ld_index m) :
    ∃ e ∈ m, out.i = e.i ∧ out.j = e.j ∧ out.r = e.r ∧
      (∃ v ∈ ld_index, v.idx = e.j ∧ v.variantId = out.variantId_j) ∧
      (∀ s, out.variantId_i = some s →
        ∃ v ∈ ld_index, v.idx = e.i ∧ v.variantId = s) ∧
      (out.variantId_i = none → ∀ v ∈ ld_index, v.idx ≠ e.i) := by
  simp only [resolve_variant_indices] at h
  rcases List.mem_flatMap.mp h with ⟨e, he, hout⟩
  rcases List.mem_flatMap.mp hout with ⟨vi, hvi, hmem⟩
  rcases List.mem_map.mp hmem with ⟨vj, hvj, rfl⟩
  have hvj' := List.mem_filter.mp hvj
  refine ⟨e, he, rfl, rfl, rfl,
    ⟨vj, hvj'.1, by simpa using hvj'.2, rfl⟩, ?_, ?_⟩
  · intro s hs
    by_cases hemp : (ld_index.filter fun v => v.idx == e.i).isEmpty
    · rw [if_pos hemp] at hvi
      simp only [List.mem_singleton] at hvi
      subst hvi
      simp at hs
    · rw [if_neg hemp] at hvi
      rcases List.mem_map.mp hvi with ⟨v, hv, hveq⟩
      have hv' := List.mem_filter.mp hv
      refine ⟨v, hv'.1, by simpa using hv'.2, ?_⟩
      rw [← hveq] at hs
      exact Option.some.inj hs
  · intro hnone v hv hidx
    by_cases hemp : (ld_index.filter fun w => w.idx == e.i).isEmpty
    · have : v ∈ ld_index.filter fun w => w.idx == e.i :=
        List.mem_filter.mpr ⟨hv, by simp [hidx]⟩
      rw [List.isEmpty_iff] at hemp
      rw [hemp] at this
      simp at this
    · rw [if_neg hemp] at hvi
      rcases List.mem_map.mp hvi with ⟨w, _, hveq⟩
      rw [← hveq] at hnone
      simp at hnone

/-- Existence for `resolve_variant_indices`: a matrix entry whose `j`
coordinate matches an index record always yields at least one output row
(the left join on `i` never discards the entry). -/
theorem resolve_variant_indices_exists {ld_index : List VariantIndexRecord}
    {m : List MatrixEntry} {e : MatrixEntry} {v : VariantIndexRecord}
    (he : e ∈ m) (hv : v ∈ ld_index) (hidx : v.idx = e.j) :
    ∃ out ∈ resolve_variant_indices ld_index m,
      out.i = e.i ∧ out.j = e.j ∧ out.r = e.r ∧ out.variantId_j = v.variantId := by
  have hvj : v ∈ ld_index.filter fun w => w.idx == e.j :=
    List.mem_filter.mpr ⟨hv, by simp [hidx]⟩
  by_cases hemp : (ld_index.filter fun w => w.idx == e.i).isEmpty
  · refine ⟨⟨e.i, e.j, e.r, none, v.variantId⟩, ?_, rfl, rfl, rfl, rfl⟩
    simp only [resolve_variant_indices]
    exact List.mem_flatMap.mpr ⟨e, he, List.mem_flatMap.mpr
      ⟨none, by rw [if_pos hemp]; simp, List.mem_map.mpr ⟨v, hvj, rfl⟩⟩⟩
  · obtain ⟨w, hw⟩ :=
      List.exists_mem_of_ne_nil (ld_index.filter fun x => x.idx == e.i)
        (by rwa [List.isEmpty_iff] at hemp)
    refine ⟨⟨e.i, e.j, e.r, some w.variantId, v.variantId⟩, ?_, rfl, rfl, rfl, rfl⟩
    simp only [resolve_variant_indices]
    exact List.mem_flatMap.mpr ⟨e, he, List.mem_flatMap.mpr
      ⟨some w.variantId, by rw [if_neg hemp]; exact List.mem_map.mpr ⟨w, hw, rfl⟩,
        List.mem_map.mpr ⟨v, hvj, rfl⟩⟩⟩

/-- Inversion for a successful per-population run: the reads succeeded and
the result is the per-population pipeline on the read data. -/
theorem run_population_ok_inv {read : String → Except String (List MatrixEntry × List LiftedVariantRow)}
    {s : ℚ} {p : String} {l : List ResolvedRow}
    (h : run_population read s p = .ok l) :
    ∃ data, read p = .ok data ∧
      l = create_ldindex_for_population data.1 data.2 s := by
  cases hr : read p with
  | error e => rw [run_population, hr] at h; cases h
  | ok data =>
      rw [run_population, hr] at h
      exact ⟨data, rfl, (Except.ok.inj h).symm⟩

/-- When every per-population run fails, the success list is empty and
`reduce` raises `TypeError`. -/
theorem from_gnomad_all_failed {pops : List String}
    {read : String → Except String (List MatrixEntry × List LiftedVariantRow)}
    {s : ℚ} (h : ∀ p ∈ pops, ∃ e, run_population read s p = .error e) :
    (from_gnomad pops read s).2 = .error .reduceEmptyTypeError := by
  have hnil : (pops.filterMap fun p => (run_population read s p).toOption) = [] :=
    List.filterMap_eq_nil_iff.mpr fun p hp => by
      rcases h p hp with ⟨e, he⟩
      rw [he]
      rfl
  simp only [from_gnomad, hnil]

/-- Inversion for a successful `from_gnomad`: the resulting dataframe is the
concatenation, in population order, of the successful populations'
dataframes. -/
theorem from_gnomad_ok_inv {pops : List String}
    {read : String → Except String (List MatrixEntry × List LiftedVariantRow)}
    {s : ℚ} {result : List ResolvedRow}
    (h : (from_gnomad pops read s).2 = .ok result) :
    result = (pops.filterMap fun p => (run_population read s p).toOption).flatten := by
  simp only [from_gnomad] at h
  cases hfm : pops.filterMap fun q => (run_population read s q).toOption with
  | nil => rw [hfm] at h; cases h
  | cons x rest =>
      rw [hfm] at h
      simp only [aggregate_ld_index_across_populations] at h
      rw [(Except.ok.inj h).symm, foldl_append_eq_append_flatten, List.flatten_cons]

/-- A population whose run fails contributes its diagnostic to the printed
output of `from_gnomad`. -/
theorem from_gnomad_diag_of_failed {pops : List String}
    {read : String → Except String (List MatrixEntry × List LiftedVariantRow)}
    {s : ℚ} {p : String} {e : String}
    (hp : p ∈ pops) (he : run_population read s p = .error e) :
    populationFailureDiagnostic p e ∈ (from_gnomad pops read s).1 := by
  simp only [from_gnomad]
  cases pops.filterMap fun q => (run_population read s q).toOption <;>
    exact List.mem_filterMap.mpr ⟨p, hp, by rw [he]⟩

/-- Every row of a per-population pipeline output carries the correlation of
some stored matrix entry that passed the `|r| >= min_r2 ** 0.5` filter. -/
theorem mem_create_ldindex_r {mat : List MatrixEntry} {rows : List LiftedVariantRow}
    {s : ℚ} {out : ResolvedRow}
    (h : out ∈ create_ldindex_for_population mat rows s) :
    ∃ e ∈ mat, s ≤ |e.r| ∧ out.r = e.r := by
  obtain ⟨e, he, _, _, hr, _, _, _⟩ := mem_resolve_variant_indices h
  obtain ⟨e', he', hre⟩ := mem_transpose_ld_matrix he
  have he'' := List.mem_filter.mp he'
  exact ⟨e', he''.1, of_decide_eq_true he''.2, by rw [hr, hre]⟩

/-! ### Claim theorems -/

/-- Claim C1 (code bug): the spec requires the symmetrized output to contain
both orientations of every strictly triangular entry and each diagonal entry
exactly once, and the function's own docstring promises a "Square LD matrix
without diagonal duplicates".  The code filters `i == j` (keeping only the
diagonal of the original) and unions it with a transposed copy of the whole
input, so on `[(0,0,1), (0,1,1)]` the diagonal entry appears twice and the
original orientation `(0,1,1)` is missing from the output. -/
theorem C1_transpose_duplicates_diagonal_and_drops_orientation :
    transpose_ld_matrix [⟨0, 0, 1⟩, ⟨0, 1, 1⟩] =
      [⟨0, 0, 1⟩, ⟨0, 0, 1⟩, ⟨1, 0, 1⟩] ∧
    (transpose_ld_matrix [⟨0, 0, 1⟩, ⟨0, 1, 1⟩]).count ⟨0, 0, 1⟩ = 2 ∧
    (⟨0, 1, 1⟩ : MatrixEntry) ∉ transpose_ld_matrix [⟨0, 0, 1⟩, ⟨0, 1, 1⟩] := by
  decide

/-- Claim C2 counterexample: with the single surviving record `(idx = 1)`
and the matrix entry `(i = 0, j = 1)`, the row coordinate `0` has no
surviving record, yet the entry is not excluded — the join on `i` is a left
join, so the output contains the row with a null `variantId_i`. -/
theorem C2_counterexample_left_join_keeps_unresolved_row :
    (∀ v ∈ ([⟨"v1", 100, 1⟩] : List VariantIndexRecord), v.idx ≠ 0) ∧
    resolve_variant_indices [⟨"v1", 100, 1⟩] [⟨0, 1, 1⟩] =
      [⟨0, 1, 1, none, "v1"⟩] := by
  decide

/-- Claim C2 (amended): `_resolve_variant_indices` performs an inner join
only on the `j` (col) coordinate; on the `i` (row) coordinate it performs a
left join.  Every output row has its col resolved to the `variantId` of a
surviving record, and its `variantId_i` — when present — likewise, but an
entry whose row has no surviving record is kept with a null `variantId_i`
rather than excluded; conversely every matrix entry whose col matches a
surviving record yields at least one output row. -/
theorem C2_resolve_inner_join_on_col_left_join_on_row
    (ld_index : List VariantIndexRecord) (m : List MatrixEntry) :
    (∀ out ∈ resolve_variant_indices ld_index m,
      (∃ v ∈ ld_index, v.idx = out.j ∧ v.variantId = out.variantId_j) ∧
      (∀ s, out.variantId_i = some s →
        ∃ v ∈ ld_index, v.idx = out.i ∧ v.variantId = s) ∧
      (out.variantId_i = none → ∀ v ∈ ld_index, v.idx ≠ out.i) ∧
      (∃ e ∈ m, out.i = e.i ∧ out.j = e.j ∧ out.r = e.r)) ∧
    (∀ e ∈ m, ∀ v ∈ ld_index, v.idx = e.j →
      ∃ out ∈ resolve_variant_indices ld_index m,
        out.i = e.i ∧ out.j = e.j ∧ out.r = e.r ∧
        out.variantId_j = v.variantId) := by
  constructor
  · intro out hout
    obtain ⟨e, he, hi, hj, hr, hvj, hvi, hnone⟩ := mem_resolve_variant_indices hout
    refine ⟨?_, ?_, ?_, e, he, hi, hj, hr⟩
    · rw [hj]; exact hvj
    · intro s hs
      rw [hi]
      exact hvi s hs
    · intro hn v hv
      rw [hi]
      exact hnone hn v hv
  · intro e he v hv hidx
    exact resolve_variant_indices_exists he hv hidx

/-- Claim C2 witness: the amended theorem applied to the concrete join of
one record and one matrix entry. -/
theorem C2_amended_witness :
    ∃ v ∈ ([⟨"v1", 100, 1⟩] : List VariantIndexRecord),
      v.idx = (⟨0, 1, 1, none, "v1"⟩ : ResolvedRow).j ∧
      v.variantId = (⟨0, 1, 1, none, "v1"⟩ : ResolvedRow).variantId_j :=
  ((C2_resolve_inner_join_on_col_left_join_on_row [⟨"v1", 100, 1⟩]
      [⟨0, 1, 1⟩]).1 ⟨0, 1, 1, none, "v1"⟩ (by decide)).1

/-- Claim C3 counterexample: when the single population `"EUR"` fails, the
run fails not with a `NoPopulationsSucceededError` (no such error exists in
the code) but with the `TypeError` Python's `reduce` raises on an empty
sequence. -/
theorem C3_counterexample_reduce_type_error :
    (from_gnomad ["EUR"] (fun _ => .error "storage missing") 1).2 =
      .error .reduceEmptyTypeError ∧
    FromGnomadError.reduceEmptyTypeError ≠
      FromGnomadError.noPopulationsSucceededError :=
  ⟨rfl, by decide⟩

/-- Claim C3 (amended): if the per-population pipeline fails for every
population in the list, `from_gnomad` does fail the whole run — but by
raising `reduce`'s `TypeError` over the empty success list, not a dedicated
`NoPopulationsSucceededError`. -/
theorem C3_all_populations_failed_raises_reduce_type_error
    (pops : List String)
    (read : String → Except String (List MatrixEntry × List LiftedVariantRow))
    (s : ℚ) (h : ∀ p ∈ pops, ∃ e, run_population read s p = .error e) :
    (from_gnomad pops read s).2 = .error .reduceEmptyTypeError :=
  from_gnomad_all_failed h

/-- Claim C3 witness: two populations, both failing. -/
theorem C3_amended_witness :
    (from_gnomad ["EUR", "AFR"] (fun _ => .error "corrupt matrix") 1).2 =
      .error .reduceEmptyTypeError :=
  C3_all_populations_failed_raises_reduce_type_error ["EUR", "AFR"]
    (fun _ => .error "corrupt matrix") 1
    (fun _ _ => ⟨"corrupt matrix", rfl⟩)

/-- Claim C4: when at least one population succeeds, a failure of another
population does not abort the run: `from_gnomad` returns the concatenation,
in population order, of the successful populations' dataframes (so every
successful population's rows are contained unchanged), and every failed
population leaves a diagnostic naming it. -/
theorem C4_population_failure_is_isolated
    (pops : List String)
    (read : String → Except String (List MatrixEntry × List LiftedVariantRow))
    (s : ℚ) (h : ∃ p ∈ pops, ∃ l, run_population read s p = .ok l) :
    ∃ entries, (from_gnomad pops read s).2 = .ok entries ∧
      entries =
        (pops.filterMap fun p => (run_population read s p).toOption).flatten ∧
      (∀ p ∈ pops, ∀ l, run_population read s p = .ok l →
        ∀ x ∈ l, x ∈ entries) ∧
      (∀ p ∈ pops, ∀ e, run_population read s p = .error e →
        populationFailureDiagnostic p e ∈ (from_gnomad pops read s).1) := by
  obtain ⟨p0, hp0, l0, hl0⟩ := h
  have hmem : l0 ∈ pops.filterMap fun q => (run_population read s q).toOption :=
    List.mem_filterMap.mpr ⟨p0, hp0, by rw [hl0]; rfl⟩
  refine ⟨(pops.filterMap fun q => (run_population read s q).toOption).flatten,
    ?_, rfl, ?_, ?_⟩
  · simp only [from_gnomad]
    cases hfm : pops.filterMap fun q => (run_population read s q).toOption with
    | nil => rw [hfm] at hmem; simp at hmem
    | cons x rest =>
        simp [aggregate_ld_index_across_populations,
          foldl_append_eq_append_flatten]
  · intro p hp l hl x hx
    exact List.mem_flatten.mpr
      ⟨l, List.mem_filterMap.mpr ⟨p, hp, by rw [hl]; rfl⟩, hx⟩
  · intro p hp e he
    exact from_gnomad_diag_of_failed hp he

/-- Claim C4 witness: population `"EUR"` succeeds while `"AFR"` fails; the
run completes with a result. -/
theorem C4_witness :
    ∃ entries,
      (from_gnomad ["EUR", "AFR"]
        (fun p => if p = "EUR" then
            .ok ([⟨0, 0, 1⟩], [⟨some ("chr1", 100), "A", "G", 0⟩])
          else .error "corrupt matrix") 1).2 = .ok entries := by
  obtain ⟨entries, hok, -⟩ :=
    C4_population_failure_is_isolated ["EUR", "AFR"]
      (fun p => if p = "EUR" then
          .ok ([⟨0, 0, 1⟩], [⟨some ("chr1", 100), "A", "G", 0⟩])
        else .error "corrupt matrix") 1
      ⟨"EUR", by simp, _, rfl⟩
  exact ⟨entries, hok⟩

/-- Claim C5 counterexample: `idx` 0 and 1 both derive `variantId`
`1_100_A_G`, so both are removed from the variant index (first conjunct:
only `idx` 2 survives) — yet the resolver's output for the matrix entry
`(i = 0, j = 2)` still contains a record with row coordinate `0` (the
dropped `idx`), because the join on `i` is a left join. -/
theorem C5_counterexample_dropped_idx_appears_in_output :
    process_variant_indices
      [⟨some ("chr1", 100), "A", "G", 0⟩, ⟨some ("chr1", 100), "A", "G", 1⟩,
        ⟨some ("chr1", 200), "A", "T", 2⟩] = [⟨"1_200_A_T", 200, 2⟩] ∧
    resolve_variant_indices
      (process_variant_indices
        [⟨some ("chr1", 100), "A", "G", 0⟩, ⟨some ("chr1", 100), "A", "G", 1⟩,
          ⟨some ("chr1", 200), "A", "T", 2⟩]) [⟨0, 2, 1⟩] =
      [⟨0, 2, 1, none, "1_200_A_T"⟩] := by
  decide

/-- Claim C5 (amended): if two rows with distinct `idx` derive the same
`variantId`, every row of that `variantId` group is removed from the
population's variant index, and that `variantId` never appears in any
resolver output — neither as `variantId_j` nor as a present `variantId_i`.
The dropped `idx` itself can, however, still appear as the unresolved row
coordinate of an output record (with a null `variantId_i`), because the
join on `i` is a left join. -/
theorem C5_ambiguous_idx_removed_amended
    (rows : List LiftedVariantRow) (m : List MatrixEntry)
    (r1 r2 : LiftedVariantRow) (rec1 rec2 : VariantIndexRecord)
    (h1 : r1 ∈ rows) (h2 : r2 ∈ rows)
    (hd1 : derivedRecord r1 = some rec1) (hd2 : derivedRecord r2 = some rec2)
    (hidx : rec1.idx ≠ rec2.idx) (hvid : rec1.variantId = rec2.variantId) :
    (∀ rec ∈ process_variant_indices rows, rec.variantId ≠ rec1.variantId) ∧
    (∀ out ∈ resolve_variant_indices (process_variant_indices rows) m,
      out.variantId_j ≠ rec1.variantId ∧
      out.variantId_i ≠ some rec1.variantId) := by
  have hne : rec1 ≠ rec2 := fun hEq => hidx (by rw [hEq])
  have hmem1 : rec1 ∈ rows.filterMap derivedRecord :=
    List.mem_filterMap.mpr ⟨r1, h1, hd1⟩
  have hmem2 : rec2 ∈ rows.filterMap derivedRecord :=
    List.mem_filterMap.mpr ⟨r2, h2, hd2⟩
  have main : ∀ rec ∈ process_variant_indices rows,
      rec.variantId ≠ rec1.variantId := by
    intro rec hrec hv
    simp only [process_variant_indices] at hrec
    have hf := List.mem_filter.mp hrec
    have hcount : ((rows.filterMap derivedRecord).countP
        fun w => w.variantId == rec.variantId) = 1 := by
      simpa using hf.2
    have h2le : 2 ≤ (rows.filterMap derivedRecord).countP
        fun w => w.variantId == rec.variantId :=
      two_le_countP hmem1 hmem2 hne (by simp [hv]) (by simp [hv, hvid.symm])
    omega
  refine ⟨main, ?_⟩
  intro out hout
  obtain ⟨e, he, hi, hj, hr, hvj, hvi, hnone⟩ := mem_resolve_variant_indices hout
  constructor
  · intro hEq
    obtain ⟨v, hvmem, _, hvid'⟩ := hvj
    exact main v hvmem (by rw [hvid', hEq])
  · intro hEq
    obtain ⟨v, hvmem, _, hvid'⟩ := hvi rec1.variantId hEq
    exact main v hvmem hvid'

/-- Claim C5 witness: the amended theorem applied to the concrete ambiguous
table (idx 0 and 1 both derive `1_100_A_G`). -/
theorem C5_amended_witness :
    (⟨"1_200_A_T", 200, 2⟩ : VariantIndexRecord).variantId ≠ "1_100_A_G" :=
  (@C5_ambiguous_idx_removed_amended
    [⟨some ("chr1", 100), "A", "G", 0⟩, ⟨some ("chr1", 100), "A", "G", 1⟩,
      ⟨some ("chr1", 200), "A", "T", 2⟩] []
    ⟨some ("chr1", 100), "A", "G", 0⟩ ⟨some ("chr1", 100), "A", "G", 1⟩
    ⟨"1_100_A_G", 100, 0⟩ ⟨"1_100_A_G", 100, 1⟩
    (by decide) (by decide) (by decide) (by decide) (by decide) (by decide)).1
    ⟨"1_200_A_T", 200, 2⟩ (by decide)

/-- Claim C6: writing `sqrt_min_r2` for the threshold the code computes as
`min_r2 ** 0.5` (so `sqrt_min_r2 ^ 2 = min_r2` and `sqrt_min_r2 ≥ 0`),
every entry emitted by `_convert_ld_matrix_to_table` satisfies
`r ^ 2 ≥ min_r2`, and every row of a successful `from_gnomad` result does
too — so an entry with `|r| < sqrt(min_r2)` never appears in the final
`LDIndex`. -/
theorem C6_threshold_filter_sound (min_r2 sqrt_min_r2 : ℚ)
    (hpos : 0 ≤ sqrt_min_r2) (hsq : sqrt_min_r2 ^ 2 = min_r2) :
    (∀ entries : List MatrixEntry,
      ∀ e ∈ convert_ld_matrix_to_table entries sqrt_min_r2,
        min_r2 ≤ e.r ^ 2) ∧
    (∀ pops read result, (from_gnomad pops read sqrt_min_r2).2 = .ok result →
      ∀ out ∈ result, min_r2 ≤ out.r ^ 2) := by
  have key : ∀ r : ℚ, sqrt_min_r2 ≤ |r| → min_r2 ≤ r ^ 2 := by
    intro r hr
    calc min_r2 = sqrt_min_r2 ^ 2 := hsq.symm
      _ ≤ |r| ^ 2 := pow_le_pow_left₀ hpos hr 2
      _ = r ^ 2 := sq_abs r
  constructor
  · intro entries e he
    obtain ⟨e', he', hre⟩ := mem_transpose_ld_matrix he
    have h2 := List.mem_filter.mp he'
    rw [hre]
    exact key _ (of_decide_eq_true h2.2)
  · intro pops read result hok out hout
    rw [from_gnomad_ok_inv hok] at hout
    obtain ⟨l, hl, hxl⟩ := List.mem_flatten.mp hout
    obtain ⟨p, hp, hopt⟩ := List.mem_filterMap.mp hl
    have hok' : run_population read sqrt_min_r2 p = .ok l := by
      cases hrp : run_population read sqrt_min_r2 p with
      | error e => rw [hrp] at hopt; cases hopt
      | ok l' =>
          rw [hrp] at hopt
          simp only [Except.toOption, Option.some.injEq] at hopt
          rw [hopt]
    obtain ⟨data, _, hl'⟩ := run_population_ok_inv hok'
    rw [hl'] at hxl
    obtain ⟨e, _, hre, hr⟩ := mem_create_ldindex_r hxl
    rw [hr]
    exact key _ hre

/-- Claim C6 witness: threshold 1 (so `min_r2 = 1`) on a single diagonal
entry with `r = 1`. -/
theorem C6_witness : (1 : ℚ) ≤ (⟨0, 0, 1⟩ : MatrixEntry).r ^ 2 :=
  (C6_threshold_filter_sound 1 1 (by norm_num) (by norm_num)).1
    [⟨0, 0, 1⟩] ⟨0, 0, 1⟩ (by decide)

/-- Claim C7: every record surviving `_process_variant_indices` takes its
`variantId` from `concat_ws("_", ...)`: the underscore-separated composition
of the lifted chromosome (contig with `chr` removed), the lifted position,
and the two allele strings in their original order; and the derivation is a
deterministic pure function of the lifted locus and alleles. -/
theorem C7_variant_id_is_canonical_composition (rows : List LiftedVariantRow) :
    (∀ rec ∈ process_variant_indices rows, ∃ row ∈ rows, ∃ contig pos38,
      row.lifted = some (contig, pos38) ∧ rec.idx = row.idx ∧
      rec.position =
        convert_gnomad_position_to_ensembl pos38 row.allele0 row.allele1 ∧
      rec.variantId = String.intercalate "_"
        [chromosomeOfContig contig,
          toString (convert_gnomad_position_to_ensembl pos38 row.allele0 row.allele1),
          row.allele0, row.allele1]) ∧
    (∀ r1 r2 : LiftedVariantRow, r1 = r2 →
      derivedRecord r1 = derivedRecord r2) := by
  constructor
  · intro rec hrec
    simp only [process_variant_indices] at hrec
    have hm := (List.mem_filter.mp hrec).1
    obtain ⟨row, hrow, hd⟩ := List.mem_filterMap.mp hm
    refine ⟨row, hrow, ?_⟩
    cases hlift : row.lifted with
    | none => rw [derivedRecord, hlift] at hd; cases hd
    | some cp =>
        obtain ⟨contig, pos38⟩ := cp
        rw [derivedRecord, hlift] at hd
        injection hd with hd
        subst hd
        exact ⟨contig, pos38, rfl, rfl, rfl, rfl⟩
  · intro r1 r2 h
    rw [h]

/-- Claim C7 witness: the composition theorem applied to a single lifted
row. -/
theorem C7_witness :
    ∃ row ∈ ([⟨some ("chr1", 100), "A", "G", 0⟩] : List LiftedVariantRow),
      ∃ contig pos38,
        row.lifted = some (contig, pos38) ∧
        (⟨"1_100_A_G", 100, 0⟩ : VariantIndexRecord).idx = row.idx ∧
        (⟨"1_100_A_G", 100, 0⟩ : VariantIndexRecord).position =
          convert_gnomad_position_to_ensembl pos38 row.allele0 row.allele1 ∧
        (⟨"1_100_A_G", 100, 0⟩ : VariantIndexRecord).variantId =
          String.intercalate "_"
            [chromosomeOfContig contig,
              toString (convert_gnomad_position_to_ensembl pos38 row.allele0
                row.allele1),
              row.allele0, row.allele1] :=
  (C7_variant_id_is_canonical_composition
    [⟨some ("chr1", 100), "A", "G", 0⟩]).1 ⟨"1_100_A_G", 100, 0⟩ (by decide)

/-- A filter is non-empty exactly when some member satisfies the
predicate. -/
theorem filter_ne_nil_iff_exists {α : Type} {p : α → Bool} {l : List α} :
    l.filter p ≠ [] ↔ ∃ x ∈ l, p x = true := by
  constructor
  · intro h
    obtain ⟨x, hx⟩ := List.exists_mem_of_ne_nil _ h
    have hx' := List.mem_filter.mp hx
    exact ⟨x, hx'.1, hx'.2⟩
  · rintro ⟨x, hx, hpx⟩ hnil
    have hmem : x ∈ l.filter p := List.mem_filter.mpr ⟨hx, hpx⟩
    rw [hnil] at hmem
    simp at hmem

/-- The first `validate_schema` check fires exactly when some observed
field's name is absent from the expected names. -/
theorem unexpected_check_iff (expected observed : Schema) :
    ((observed.filter fun x =>
        !((expected.map (·.name)).contains x.name)).map (·.name) ≠ []) ↔
      ∃ x ∈ observed, ∀ y ∈ expected, y.name ≠ x.name := by
  rw [Ne, List.map_eq_nil_iff, ← Ne, filter_ne_nil_iff_exists]
  simp

/-- The second `validate_schema` check fires exactly when some expected
non-nullable field has no observed field of its name. -/
theorem missing_required_check_iff (expected observed : Schema) :
    (((expected.filter fun x => !x.nullable).map (·.name)).filter
        (fun req => !(observed.any fun field => field.name == req)) ≠ []) ↔
      ∃ y ∈ expected, y.nullable = false ∧ ∀ x ∈ observed, x.name ≠ y.name := by
  rw [filter_ne_nil_iff_exists]
  simp [List.mem_filter]
  tauto

/-- The third `validate_schema` check fires exactly when some observed
field value (name, datatype and nullability together) occurs more than
once. -/
theorem duplicated_check_iff (observed : Schema) :
    (observed.dedup.filter (fun x => decide (1 < observed.count x)) ≠ []) ↔
      ∃ x ∈ observed, 1 < observed.count x := by
  rw [filter_ne_nil_iff_exists]
  simp [List.mem_dedup]

/-- The fourth `validate_schema` check fires exactly when some observed
name's last-occurrence datatype differs from the expected last-occurrence
datatype for that name. -/
theorem datatype_check_iff (expected observed : Schema) :
    (((observed.map (·.name)).dedup).filter (fun n =>
        match lastFieldType observed n, lastFieldType expected n with
        | some observed_type, some expected_type => observed_type != expected_type
        | _, _ => false) ≠ []) ↔
      ∃ x ∈ observed, ∃ tobs texp,
        lastFieldType observed x.name = some tobs ∧
        lastFieldType expected x.name = some texp ∧ tobs ≠ texp := by
  rw [filter_ne_nil_iff_exists]
  constructor
  · rintro ⟨n, hn, hpn⟩
    rw [List.mem_dedup] at hn
    obtain ⟨x, hx, hxn⟩ := List.mem_map.mp hn
    subst hxn
    cases ho : lastFieldType observed x.name with
    | none => rw [ho] at hpn; cases hpn
    | some tobs =>
        cases hee : lastFieldType expected x.name with
        | none => rw [ho, hee] at hpn; cases hpn
        | some texp =>
            rw [ho, hee] at hpn
            exact ⟨x, hx, tobs, texp, ho, hee, by simpa using hpn⟩
  · rintro ⟨x, hx, tobs, texp, ho, hee, hne⟩
    refine ⟨x.name, List.mem_dedup.mpr (List.mem_map.mpr ⟨x, hx, rfl⟩), ?_⟩
    rw [ho, hee]
    simpa using hne

/-- Claim C8 counterexample: two observed fields share the name `a` but
differ in nullability, so the dataframe has a duplicated field name — yet
`validate_schema` returns without error, because its duplication check
compares whole `StructField` values, and the last-wins datatype dictionary
sees no mismatch. -/
theorem C8_counterexample_duplicated_name_passes :
    validate_schema [⟨"a", .integer, true⟩]
        [⟨"a", .integer, true⟩, ⟨"a", .integer, false⟩] = .ok () ∧
    (([⟨"a", .integer, true⟩, ⟨"a", .integer, false⟩] : Schema).map
        StructField.name).count "a" = 2 :=
  ⟨rfl, by decide⟩

/-- Claim C8 (amended): `validate_schema` raises exactly when the dataframe
has a field whose name is absent from the expected schema, is missing a
required (non-nullable) field, has a field duplicated as a whole (same
name, datatype and nullability occurring more than once — a duplicated name
alone does not trigger it), or has a name whose last-occurrence datatype
differs from the expected one; otherwise it returns without error. -/
theorem C8_validate_schema_error_iff (expected observed : Schema) :
    (∃ e, validate_schema expected observed = .error e) ↔
      ((∃ x ∈ observed, ∀ y ∈ expected, y.name ≠ x.name) ∨
       (∃ y ∈ expected, y.nullable = false ∧ ∀ x ∈ observed, x.name ≠ y.name) ∨
       (∃ x ∈ observed, 1 < observed.count x) ∨
       (∃ x ∈ observed, ∃ tobs texp,
         lastFieldType observed x.name = some tobs ∧
         lastFieldType expected x.name = some texp ∧ tobs ≠ texp)) := by
  simp only [validate_schema, flatten_schema]
  split_ifs with h1 h2 h3 h4
  · exact ⟨fun _ => Or.inl ((unexpected_check_iff expected observed).mp h1),
      fun _ => ⟨_, rfl⟩⟩
  · exact ⟨fun _ => Or.inr (Or.inl
      ((missing_required_check_iff expected observed).mp h2)),
      fun _ => ⟨_, rfl⟩⟩
  · exact ⟨fun _ => Or.inr (Or.inr (Or.inl
      ((duplicated_check_iff observed).mp h3))),
      fun _ => ⟨_, rfl⟩⟩
  · exact ⟨fun _ => Or.inr (Or.inr (Or.inr
      ((datatype_check_iff expected observed).mp h4))),
      fun _ => ⟨_, rfl⟩⟩
  · constructor
    · rintro ⟨e, he⟩
      cases he
    · rintro (hc | hc | hc | hc)
      · exact absurd ((unexpected_check_iff expected observed).mpr hc) h1
      · exact absurd ((missing_required_check_iff expected observed).mpr hc) h2
      · exact absurd ((duplicated_check_iff observed).mpr hc) h3
      · exact absurd ((datatype_check_iff expected observed).mpr hc) h4

/-- Claim C8 witness: the amended characterization applied to a concrete
missing required field. -/
theorem C8_amended_witness :
    ∃ e, validate_schema [⟨"a", .integer, false⟩] [] = .error e :=
  (C8_validate_schema_error_iff [⟨"a", .integer, false⟩] []).mpr
    (Or.inr (Or.inl ⟨⟨"a", .integer, false⟩, by decide, rfl, by decide⟩))

/-- Inversion for a successful `Dataset` construction: the instance holds
exactly the given dataframe and schema, and validation passed. -/
theorem make_ok_inv {df : DataFrame} {schema : Schema} {d : Dataset}
    (h : Dataset.make df schema = .ok d) :
    d = ⟨df, schema⟩ ∧ validate_schema schema df.schema = .ok () := by
  unfold Dataset.make at h
  cases hv : validate_schema schema df.schema with
  | ok u =>
      simp only [hv] at h
      cases u
      exact ⟨(Except.ok.inj h).symm, rfl⟩
  | error e => simp [hv] at h

/-- Claim C9 counterexample: the `df` setter rebinds `self._df` before
calling `validate_schema`, so a setter call that raises leaves the live
instance holding the schema-invalid dataframe.  Starting from a valid
dataset over the schema `[a]`, setting a dataframe whose only field is `b`
raises — and the resulting dataset is still reachable (live) yet fails
validation against its own schema. -/
theorem C9_counterexample_failed_set_leaves_invalid_dataset :
    ((⟨⟨[⟨"a", .integer, true⟩], []⟩, [⟨"a", .integer, true⟩]⟩ : Dataset).setDf
        ⟨[⟨"b", .integer, true⟩], []⟩).2 =
      .error "fields are not included in DataFrame schema" ∧
    Dataset.Reachable
      ((⟨⟨[⟨"a", .integer, true⟩], []⟩, [⟨"a", .integer, true⟩]⟩ : Dataset).setDf
        ⟨[⟨"b", .integer, true⟩], []⟩).1 ∧
    validate_schema
      (((⟨⟨[⟨"a", .integer, true⟩], []⟩, [⟨"a", .integer, true⟩]⟩ : Dataset).setDf
          ⟨[⟨"b", .integer, true⟩], []⟩).1)._schema
      (((⟨⟨[⟨"a", .integer, true⟩], []⟩, [⟨"a", .integer, true⟩]⟩ : Dataset).setDf
          ⟨[⟨"b", .integer, true⟩], []⟩).1)._df.schema =
      .error "fields are not included in DataFrame schema" :=
  ⟨rfl,
    Dataset.Reachable.set
      ⟨⟨[⟨"a", .integer, true⟩], []⟩, [⟨"a", .integer, true⟩]⟩
      ⟨[⟨"b", .integer, true⟩], []⟩
      (Dataset.Reachable.make ⟨[⟨"a", .integer, true⟩], []⟩
        [⟨"a", .integer, true⟩]
        ⟨⟨[⟨"a", .integer, true⟩], []⟩, [⟨"a", .integer, true⟩]⟩ rfl),
    rfl⟩

/-- Claim C9 (amended): construction, `from_parquet` and `filter` validate
through `__post_init__`, so a raising construction leaves no instance and
every dataset they return satisfies its schema; the `df` setter also
re-validates and propagates the failure — but it rebinds `_df` first, so
its post-state always holds the new dataframe: a setter call that raises
leaves the live `Dataset` holding the schema-invalid dataframe, and only a
setter call that returns without raising guarantees a schema-valid
dataset. -/
theorem C9_amended_schema_valid_unless_setter_raised :
    (∀ (df : DataFrame) (schema : Schema) (d : Dataset),
      Dataset.make df schema = .ok d →
        validate_schema d._schema d._df.schema = .ok ()) ∧
    (∀ (schema : Schema) (path : String) (df : DataFrame) (d : Dataset),
      Dataset.from_parquet schema path df = .ok d →
        validate_schema d._schema d._df.schema = .ok ()) ∧
    (∀ (class_schema : Schema) (d : Dataset) (p : List String → Bool)
        (d' : Dataset),
      Dataset.filterDataset class_schema d p = .ok d' →
        validate_schema d'._schema d'._df.schema = .ok ()) ∧
    (∀ (d : Dataset) (new_df : DataFrame),
      (d.setDf new_df).1 = ⟨new_df, d._schema⟩ ∧
      (d.setDf new_df).2 = validate_schema d._schema new_df.schema ∧
      ((d.setDf new_df).2 = .ok () →
        validate_schema ((d.setDf new_df).1)._schema
          ((d.setDf new_df).1)._df.schema = .ok ())) := by
  refine ⟨?_, ?_, ?_, ?_⟩
  · intro df schema d h
    obtain ⟨rfl, hv⟩ := make_ok_inv h
    exact hv
  · intro schema path df d h
    unfold Dataset.from_parquet at h
    by_cases hemp : df.rows.isEmpty
    · rw [if_pos hemp] at h
      cases h
    · rw [if_neg hemp] at h
      obtain ⟨rfl, hv⟩ := make_ok_inv h
      exact hv
  · intro class_schema d p d' h
    obtain ⟨rfl, hv⟩ := make_ok_inv h
    exact hv
  · intro d new_df
    exact ⟨rfl, rfl, fun h => h⟩

/-- Claim C9 witness: the construction conjunct applied to a directly
constructed dataset over a one-field schema. -/
theorem C9_amended_witness :
    validate_schema [⟨"a", .integer, true⟩] [⟨"a", .integer, true⟩] = .ok () :=
  C9_amended_schema_valid_unless_setter_raised.1
    ⟨[⟨"a", .integer, true⟩], []⟩ [⟨"a", .integer, true⟩]
    ⟨⟨[⟨"a", .integer, true⟩], []⟩, [⟨"a", .integer, true⟩]⟩ rfl

/-- Claim C10: `from_parquet` raises `ValueError` exactly on empty loaded
data, so every `Dataset` it returns wraps a non-empty dataframe. -/
theorem C10_from_parquet_rejects_empty (schema : Schema) (path : String)
    (df : DataFrame) :
    (df.rows = [] → Dataset.from_parquet schema path df =
      .error ("Parquet file is empty: " ++ path)) ∧
    (∀ d, Dataset.from_parquet schema path df = .ok d → d._df.rows ≠ []) := by
  constructor
  · intro h
    unfold Dataset.from_parquet
    rw [if_pos (by simp [h])]
  · intro d hok
    unfold Dataset.from_parquet at hok
    by_cases hemp : df.rows.isEmpty
    · rw [if_pos hemp] at hok
      cases hok
    · rw [if_neg hemp] at hok
      obtain ⟨rfl, -⟩ := make_ok_inv hok
      rwa [List.isEmpty_iff] at hemp

/-- Claim C10 witness: the empty-data branch at a concrete path. -/
theorem C10_witness :
    Dataset.from_parquet [⟨"a", .integer, true⟩] "gs://bucket/ld.parquet"
      ⟨[⟨"a", .integer, true⟩], []⟩ =
      .error ("Parquet file is empty: " ++ "gs://bucket/ld.parquet") :=
  (C10_from_parquet_rejects_empty [⟨"a", .integer, true⟩]
    "gs://bucket/ld.parquet" ⟨[⟨"a", .integer, true⟩], []⟩).1 rfl

end Gentropy
